import Mathlib

/-!
Shallow embedding of the kasd interpreter pipeline (lexer, parser,
semantic analyzer, tree-walking interpreter, shared diagnostic slot),
translated from the C sources under src/.  Machine `int` counters are
modelled as `Nat` (they only count characters/lines and never overflow on
the inputs considered); `int64_t` literal payloads are modelled as `Int`
with the `strtoll` clamp made explicit; `double` float payloads are
modelled by the literal's source lexeme — no claim inspects the numeric
value of a float.  C strings are `List Char`; reading past the
terminating NUL is modelled by `charAt` returning the NUL character.
-/

namespace Kasd

/-! ### Shared value model and diagnostic slot (common.h / common.c) -/

/-- ValueType enum from common.h, in declaration order
(VALUE_NULL, VALUE_INT, VALUE_FLOAT, VALUE_BOOL, VALUE_STRING). -/
inductive ValueType where
  | valueNull
  | valueInt
  | valueFloat
  | valueBool
  | valueString
deriving DecidableEq, Repr

/-- Value tagged union from common.h.  The float payload keeps the source
lexeme rather than an IEEE double (see the file header). -/
inductive Value where
  | vnull
  | vint (i : Int)
  | vfloat (lexeme : List Char)
  | vbool (b : Bool)
  | vstring (s : List Char)
deriving DecidableEq, Repr

/-- The `type` tag field of a C Value. -/
def Value.vtype : Value → ValueType
  | .vnull => .valueNull
  | .vint _ => .valueInt
  | .vfloat _ => .valueFloat
  | .vbool _ => .valueBool
  | .vstring _ => .valueString

/-- value_type_to_string from common.c. -/
def value_type_to_string : ValueType → String
  | .valueNull => "null"
  | .valueInt => "int"
  | .valueFloat => "float"
  | .valueBool => "bool"
  | .valueString => "string"

/-- ErrorType enum from common.h. -/
inductive ErrorType where
  | errorNone
  | errorSyntax
  | errorType
  | errorName
  | errorRuntime
  | errorInternal
deriving DecidableEq, Repr

/-- Error structure from common.h (the process-wide diagnostic slot,
threaded explicitly).  `etype` models the C field named `type`; `message`
is `none` when the C pointer is NULL. -/
structure KError where
  etype : ErrorType
  line : Int
  column : Int
  message : Option String
  source_line : Option (List Char)
  source_pos : Int
  source_len : Int
  has_error : Bool
deriving DecidableEq, Repr

/-- set_error from common.c: records only when no diagnostic is pending. -/
def set_error (e : KError) (t : ErrorType) (line column : Int) (message : String)
    (source_line : Option (List Char)) (source_pos source_len : Int) : KError :=
  if e.has_error then e
  else
    { etype := t, line := line, column := column, message := some message,
      source_line := source_line, source_pos := source_pos,
      source_len := source_len, has_error := true }

/-- The reset slot produced by clear_error in common.c. -/
def cleared_error : KError :=
  { etype := .errorNone, line := 0, column := 0, message := none,
    source_line := none, source_pos := -1, source_len := 0, has_error := false }

/-- clear_error from common.c: frees owned strings and resets every field. -/
def clear_error (_e : KError) : KError := cleared_error

/-! ### Lexer (lexer.h / lexer.c) -/

/-- TokenType enum from lexer.h, in declaration order. -/
inductive TokenType where
  | tokenEof
  | tokenIdentifier
  | tokenInt
  | tokenFloat
  | tokenString
  | tokenLet
  | tokenColon
  | tokenEqual
  | tokenSemicolon
  | tokenTrue
  | tokenFalse
  | tokenNull
  | tokenTypeInt
  | tokenTypeFloat
  | tokenTypeBool
  | tokenTypeString
  | tokenTypeNull
deriving DecidableEq, Repr

/-- The `value` union of a Token: absent for non-literal tokens.  A float
token keeps its lexeme (strtod is not modelled, see the file header). -/
inductive TokenPayload where
  | pnone
  | pint (i : Int)
  | pfloat (lexeme : List Char)
  | pstr (s : List Char)
deriving DecidableEq, Repr

/-- Token structure from lexer.h.  `startPos` models the `start` pointer as
an offset into the source (for an error token the C pointer aliases the
message instead; we store 0 there — the offset of an error token is never
observable, because every consumer's set_error call finds the diagnostic
slot already pending and is a no-op).  `column` is an `int` in C and can
be computed by subtraction, hence `Int` here. -/
structure Token where
  ttype : TokenType
  startPos : Nat
  length : Nat
  line : Nat
  column : Int
  payload : TokenPayload
deriving DecidableEq, Repr

/-- Union read `token.value.as_int` (only performed on TOKEN_INT tokens). -/
def Token.asInt : Token → Int
  | t => match t.payload with
    | .pint i => i
    | _ => 0

/-- Union read `token.value.as_float`, as the stored lexeme. -/
def Token.asFloatLex : Token → List Char
  | t => match t.payload with
    | .pfloat s => s
    | _ => []

/-- Union read `token.value.as_string`. -/
def Token.asString : Token → List Char
  | t => match t.payload with
    | .pstr s => s
    | _ => []

/-- Lexer structure from lexer.h.  Pointers `current`/`start` are offsets
`pos`/`startPos` into `source`.  (The unused `previous` field of the C
struct is omitted: lexer.c never reads or writes it.) -/
structure Lexer where
  source : List Char
  pos : Nat
  startPos : Nat
  line : Nat
  col : Nat
  hadError : Bool
deriving DecidableEq, Repr

/-- The NUL character terminating a C string. -/
def nulChar : Char := Char.ofNat 0

/-- Reading `source[i]`: past the end of the list the C scanner sees the
terminating NUL. -/
def charAt (s : List Char) (i : Nat) : Char := s.getD i nulChar

/-- CharClass enum from lexer.c. -/
inductive CharKind where
  | whitespace
  | alpha
  | digit
  | special
  | quote
  | newline
  | eof
deriving DecidableEq, Repr

/-- C-locale isspace (lexer.c builds its table with ctype.h in the default
locale). -/
def is_c_space (c : Char) : Bool :=
  c = ' ' || c = Char.ofNat 9 || c = Char.ofNat 10 || c = Char.ofNat 11 ||
  c = Char.ofNat 12 || c = Char.ofNat 13

/-- C-locale isalpha. -/
def is_c_alpha (c : Char) : Bool :=
  ('A' ≤ c && c ≤ 'Z') || ('a' ≤ c && c ≤ 'z')

/-- C-locale isdigit. -/
def is_c_digit (c : Char) : Bool :=
  '0' ≤ c && c ≤ '9'

/-- The char_classes table built by init_char_classes in lexer.c: the
assignments there are applied to disjoint character sets (newline is
excluded from whitespace), so an if-chain reproduces the table. -/
def char_kind (c : Char) : CharKind :=
  if c = nulChar then .eof
  else if c = Char.ofNat 10 then .newline
  else if c = '"' then .quote
  else if is_c_digit c then .digit
  else if is_c_alpha c || c = '_' then .alpha
  else if is_c_space c then .whitespace
  else .special

/-- init_lexer from lexer.c. -/
def init_lexer (source : List Char) : Lexer :=
  { source := source, pos := 0, startPos := 0, line := 1, col := 1,
    hadError := false }

/-- is_at_end from lexer.c: `*lexer->current == 0`. -/
def is_at_end (l : Lexer) : Bool := charAt l.source l.pos = nulChar

/-- advance from lexer.c (the consumed character is read via charAt before
calling this). -/
def advanceL (l : Lexer) : Lexer := { l with col := l.col + 1, pos := l.pos + 1 }

/-- Fuel bound for the lexer's scanning loops: each loop advances `pos`
only while the current character is not the NUL, so `pos` stays below
`source.length` whenever an iteration runs and
`source.length + 1 - pos` steps always suffice. -/
def lexer_fuel (l : Lexer) : Nat := l.source.length + 1 - l.pos

/-- The loop of skip_whitespace from lexer.c, with explicit fuel. -/
def skip_whitespace_f : Nat → Lexer → Lexer
  | 0, l => l
  | fuel + 1, l =>
    match char_kind (charAt l.source l.pos) with
    | .whitespace => skip_whitespace_f fuel (advanceL l)
    | .newline =>
      skip_whitespace_f fuel (advanceL { l with line := l.line + 1, col := 1 })
    | _ => l

/-- skip_whitespace from lexer.c. -/
def skip_whitespace (l : Lexer) : Lexer := skip_whitespace_f (lexer_fuel l) l

/-- make_token from lexer.c: the span is [startPos, pos) and the reported
column is the column counter minus the token length. -/
def make_token (l : Lexer) (t : TokenType) : Token :=
  { ttype := t, startPos := l.startPos, length := l.pos - l.startPos,
    line := l.line, column := (l.col : Int) - ((l.pos - l.startPos : Nat) : Int),
    payload := .pnone }

/-- error_token from lexer.c: marks the lexer, records a Syntax diagnostic
spanning [startPos, pos), and returns a TOKEN_EOF-typed token whose text
is the message (its `start` aliases the message; see Token.startPos). -/
def error_token (l : Lexer) (e : KError) (message : String) :
    Token × Lexer × KError :=
  let e' := set_error e .errorSyntax (l.line : Int) (l.col : Int) message
    (some l.source) (l.startPos : Int) (((l.pos - l.startPos : Nat)) : Int)
  ({ ttype := .tokenEof, startPos := 0, length := message.length,
     line := l.line, column := (l.col : Int), payload := .pnone },
   { l with hadError := true }, e')

/-- List slice [a, a+len) of the source, modelling pointer+length spans. -/
def slice (s : List Char) (a len : Nat) : List Char := (s.drop a).take len

/-- The current lexeme span [start, current) of the lexer. -/
def token_lexeme (l : Lexer) : List Char := slice l.source l.startPos (l.pos - l.startPos)

/-- The keyword table from lexer.c, in order. -/
def keywords : List (List Char × TokenType) :=
  [("let".toList, .tokenLet), ("true".toList, .tokenTrue),
   ("false".toList, .tokenFalse), ("null".toList, .tokenNull),
   ("int".toList, .tokenTypeInt), ("float".toList, .tokenTypeFloat),
   ("bool".toList, .tokenTypeBool), ("string".toList, .tokenTypeString)]

/-- The scan of check_keyword: exact length + bytes match against each
table entry in order. -/
def check_keyword_list : List (List Char × TokenType) → List Char → TokenType
  | [], _ => .tokenIdentifier
  | (kw, t) :: rest, lexeme =>
    if kw = lexeme then t else check_keyword_list rest lexeme

/-- check_keyword from lexer.c. -/
def check_keyword (l : Lexer) : TokenType := check_keyword_list keywords (token_lexeme l)

/-- The identifier loop of lexer.c (consume CHAR_ALPHA / CHAR_DIGIT). -/
def ident_loop_f : Nat → Lexer → Lexer
  | 0, l => l
  | fuel + 1, l =>
    match char_kind (charAt l.source l.pos) with
    | .alpha => ident_loop_f fuel (advanceL l)
    | .digit => ident_loop_f fuel (advanceL l)
    | _ => l

/-- The identifier loop with its fuel bound. -/
def ident_loop (l : Lexer) : Lexer := ident_loop_f (lexer_fuel l) l

/-- identifier from lexer.c. -/
def identifier (l : Lexer) : Token × Lexer :=
  let l' := ident_loop l
  (make_token l' (check_keyword l'), l')

/-- The digit-run loop of number in lexer.c. -/
def digit_loop_f : Nat → Lexer → Lexer
  | 0, l => l
  | fuel + 1, l =>
    match char_kind (charAt l.source l.pos) with
    | .digit => digit_loop_f fuel (advanceL l)
    | _ => l

/-- The digit-run loop with its fuel bound. -/
def digit_loop (l : Lexer) : Lexer := digit_loop_f (lexer_fuel l) l

/-- Decimal value of a digit run. -/
def digits_val (ds : List Char) : Nat :=
  ds.foldl (fun a c => a * 10 + (c.toNat - 48)) 0

/-- INT64_MAX, the clamp strtoll applies to an unsigned decimal run. -/
def int64_max : Nat := 9223372036854775807

/-- strtoll(lexeme, _, 10) on a digit run (no sign, clamped at INT64_MAX). -/
def strtoll_clamped (ds : List Char) : Int := ((min (digits_val ds) int64_max : Nat) : Int)

/-- number from lexer.c: digits, then optionally a decimal point followed
by a digit and more digits; the payload parses the lexeme. -/
def number (l : Lexer) : Token × Lexer :=
  let l1 := digit_loop l
  if charAt l1.source l1.pos = '.' ∧ char_kind (charAt l1.source (l1.pos + 1)) = CharKind.digit then
    let l2 := digit_loop (advanceL l1)
    let tok := make_token l2 .tokenFloat
    ({ tok with payload := .pfloat (token_lexeme l2) }, l2)
  else
    let tok := make_token l1 .tokenInt
    ({ tok with payload := .pint (strtoll_clamped (token_lexeme l1)) }, l1)

/-- The content loop of string in lexer.c: consume until a closing quote
or end of input, counting newlines. -/
def string_loop_f : Nat → Lexer → Lexer
  | 0, l => l
  | fuel + 1, l =>
    if charAt l.source l.pos ≠ '"' ∧ is_at_end l = false then
      if charAt l.source l.pos = Char.ofNat 10 then
        string_loop_f fuel (advanceL { l with line := l.line + 1, col := 1 })
      else
        string_loop_f fuel (advanceL l)
    else l

/-- The string content loop with its fuel bound. -/
def string_loop (l : Lexer) : Lexer := string_loop_f (lexer_fuel l) l

/-- string from lexer.c.  On entry scan_token has already consumed the
opening quote; the function nevertheless starts with one more advance
("skip the opening quote"), so the first content character is dropped
from the copied payload — translated faithfully.  The token's span still
starts at lexer->start (the opening quote). -/
def string_tok (l : Lexer) (e : KError) : Token × Lexer × KError :=
  let l1 := advanceL l
  let contentStart := l1.pos
  let l2 := string_loop l1
  if is_at_end l2 then error_token l2 e "Unterminated string."
  else
    let contentLen := l2.pos - contentStart
    let tok := make_token l2 .tokenString
    ({ tok with payload := .pstr (slice l2.source contentStart contentLen) },
     advanceL l2, e)

/-- scan_token from lexer.c. -/
def scan_token (l0 : Lexer) (e : KError) : Token × Lexer × KError :=
  let l1 := skip_whitespace l0
  let l := { l1 with startPos := l1.pos }
  if is_at_end l then (make_token l .tokenEof, l, e)
  else
    let c := charAt l.source l.pos
    let la := advanceL l
    match char_kind c with
    | .alpha =>
      let r := identifier la
      (r.1, r.2, e)
    | .digit =>
      let r := number la
      (r.1, r.2, e)
    | .quote => string_tok la e
    | _ =>
      if c = ':' then (make_token la .tokenColon, la, e)
      else if c = '=' then (make_token la .tokenEqual, la, e)
      else if c = ';' then (make_token la .tokenSemicolon, la, e)
      else error_token la e ("Unexpected character: " ++ String.singleton (Char.ofNat 39) ++ String.singleton c ++ String.singleton (Char.ofNat 39))

/-! ### Parser (parser.h / parser.c) -/

/-- AST node from parser.h: a tagged union of a variable declaration and a
literal, with the node's line/column. -/
inductive AstNode where
  | variableDeclaration (line : Nat) (column : Int) (name : List Char)
      (varType : ValueType) (initializer : AstNode)
  | literal (line : Nat) (column : Int) (value : Value)
deriving DecidableEq, Repr

/-- The `line` field of an AST node. -/
def AstNode.nline : AstNode → Nat
  | .variableDeclaration line _ _ _ _ => line
  | .literal line _ _ => line

/-- The `column` field of an AST node. -/
def AstNode.ncolumn : AstNode → Int
  | .variableDeclaration _ column _ _ _ => column
  | .literal _ column _ => column

/-- Parser structure from parser.h; the shared diagnostic slot is threaded
alongside it. -/
structure Parser where
  lexer : Lexer
  current : Token
  previous : Token
  hadError : Bool
  panicMode : Bool
deriving DecidableEq, Repr

/-- A zeroed token standing for the uninitialized `current`/`previous`
fields before init_parser's priming advance (never read before being
overwritten). -/
def default_token : Token :=
  { ttype := .tokenEof, startPos := 0, length := 0, line := 0, column := 0,
    payload := .pnone }

/-- advance from parser.c (log_message is I/O only and dropped). -/
def advanceP (p : Parser) (e : KError) : Parser × KError :=
  let r := scan_token p.lexer e
  ({ p with previous := p.current, current := r.1, lexer := r.2.1 }, r.2.2)

/-- init_parser from parser.c: set fields, then prime with one advance. -/
def init_parser_state (lx : Lexer) (e : KError) : Parser × KError :=
  advanceP
    { lexer := lx, current := default_token, previous := default_token,
      hadError := false, panicMode := false } e

/-- check from parser.c. -/
def checkP (p : Parser) (t : TokenType) : Bool := p.current.ttype = t

/-- match from parser.c. -/
def matchP (p : Parser) (e : KError) (t : TokenType) : Bool × Parser × KError :=
  if p.current.ttype = t then
    let r := advanceP p e
    (true, r.1, r.2)
  else (false, p, e)

/-- consume from parser.c: advance on a match, otherwise record a Syntax
diagnostic at the current token (span = its lexeme) and fail without
advancing. -/
def consume (p : Parser) (e : KError) (t : TokenType) (message : String) :
    Bool × Parser × KError :=
  if p.current.ttype = t then
    let r := advanceP p e
    (true, r.1, r.2)
  else
    let e' := set_error e .errorSyntax (p.current.line : Int) p.current.column
      message (some p.lexer.source) (p.current.startPos : Int) (p.current.length : Int)
    (false, { p with hadError := true }, e')

/-- token_to_value_type from parser.c (a designated-initializer array whose
unset entries are 0 = VALUE_NULL). -/
def token_to_value_type : TokenType → ValueType
  | .tokenTypeInt => .valueInt
  | .tokenTypeFloat => .valueFloat
  | .tokenTypeBool => .valueBool
  | .tokenTypeString => .valueString
  | .tokenTypeNull => .valueNull
  | _ => .valueNull

/-- parse_literal from parser.c. -/
def parse_literal (p : Parser) (e : KError) : Option AstNode × Parser × KError :=
  match p.current.ttype with
  | .tokenInt =>
    let node := AstNode.literal p.current.line p.current.column (Value.vint p.current.asInt)
    let r := advanceP p e
    (some node, r.1, r.2)
  | .tokenFloat =>
    let node := AstNode.literal p.current.line p.current.column (Value.vfloat p.current.asFloatLex)
    let r := advanceP p e
    (some node, r.1, r.2)
  | .tokenString =>
    let node := AstNode.literal p.current.line p.current.column (Value.vstring p.current.asString)
    let r := advanceP p e
    (some node, r.1, r.2)
  | .tokenTrue =>
    let node := AstNode.literal p.current.line p.current.column (Value.vbool true)
    let r := advanceP p e
    (some node, r.1, r.2)
  | .tokenFalse =>
    let node := AstNode.literal p.current.line p.current.column (Value.vbool false)
    let r := advanceP p e
    (some node, r.1, r.2)
  | .tokenNull =>
    let node := AstNode.literal p.current.line p.current.column Value.vnull
    let r := advanceP p e
    (some node, r.1, r.2)
  | _ =>
    let e' := set_error e .errorSyntax (p.current.line : Int) p.current.column
      "Expected literal value." (some p.lexer.source) (p.current.startPos : Int)
      (p.current.length : Int)
    (none, { p with hadError := true }, e')

/-- parse_expression from parser.c (only literals are supported). -/
def parse_expression (p : Parser) (e : KError) : Option AstNode × Parser × KError :=
  parse_literal p e

/-- The for-loop over type_tokens in parse_variable_declaration: try
match() on each candidate in order, stopping at the first hit. -/
def match_first (p : Parser) (e : KError) : List TokenType → Option TokenType × Parser × KError
  | [] => (none, p, e)
  | t :: ts =>
    match matchP p e t with
    | (true, p', e') => (some t, p', e')
    | (false, _, _) => match_first p e ts

/-- parse_variable_declaration from parser.c: `let name: type = literal;`,
aborting (returning no node) at the first failed consume. -/
def parse_variable_declaration (p : Parser) (e : KError) : Option AstNode × Parser × KError :=
  match consume p e .tokenLet "Expected 'let' keyword." with
  | (false, p1, e1) => (none, p1, e1)
  | (true, p1, e1) =>
    match consume p1 e1 .tokenIdentifier "Expected variable name." with
    | (false, p2, e2) => (none, p2, e2)
    | (true, p2, e2) =>
      let nameToken := p2.previous
      match consume p2 e2 .tokenColon "Expected ':' after variable name." with
      | (false, p3, e3) => (none, p3, e3)
      | (true, p3, e3) =>
        match match_first p3 e3
            [.tokenTypeInt, .tokenTypeFloat, .tokenTypeBool, .tokenTypeString, .tokenTypeNull] with
        | (none, p4, e4) =>
          let e5 := set_error e4 .errorSyntax (p4.current.line : Int) p4.current.column
            "Expected type (int, float, bool, string, or null)." (some p4.lexer.source)
            (p4.current.startPos : Int) (p4.current.length : Int)
          (none, { p4 with hadError := true }, e5)
        | (some typeToken, p4, e4) =>
          let varType := token_to_value_type typeToken
          match consume p4 e4 .tokenEqual "Expected '=' after type." with
          | (false, p5, e5) => (none, p5, e5)
          | (true, p5, e5) =>
            match parse_expression p5 e5 with
            | (none, p6, e6) => (none, p6, e6)
            | (some initializer, p6, e6) =>
              match consume p6 e6 .tokenSemicolon "Expected ';' after variable declaration." with
              | (false, p7, e7) => (none, p7, e7)
              | (true, p7, e7) =>
                (some (AstNode.variableDeclaration nameToken.line nameToken.column
                  (slice p7.lexer.source nameToken.startPos nameToken.length)
                  varType initializer), p7, e7)

/-- parse_declaration from parser.c. -/
def parse_declaration (p : Parser) (e : KError) : Option AstNode × Parser × KError :=
  parse_variable_declaration p e

/-- The end-of-file check closing parse in parser.c: `!check(EOF) &&
!had_error` records "Expected end of file." at the current token.
Factored out of parse so properties of the check can be stated on a
parse_declaration result. -/
def parse_eof_check (r : Option AstNode × Parser × KError) : Option AstNode × Parser × KError :=
  let p1 := r.2.1
  if p1.current.ttype ≠ .tokenEof ∧ p1.hadError = false then
    let e2 := set_error r.2.2 .errorSyntax (p1.current.line : Int) p1.current.column
      "Expected end of file." (some p1.lexer.source) (p1.current.startPos : Int)
      (p1.current.length : Int)
    (r.1, { p1 with hadError := true }, e2)
  else (r.1, p1, r.2.2)

/-- parse from parser.c: one declaration, then the end-of-file check. -/
def parse (p : Parser) (e : KError) : Option AstNode × Parser × KError :=
  parse_eof_check (parse_declaration p e)

/-! ### Semantic analyzer (semantic.h / semantic.c) -/

/-- SemanticAnalyzer from semantic.h: the symbol table is a head-inserted
singly-linked list of (name, declared type). -/
structure SemanticAnalyzer where
  symbol_table : List (List Char × ValueType)
  hadError : Bool
deriving DecidableEq, Repr

/-- find_symbol from semantic.c (first strcmp match). -/
def find_symbol : List (List Char × ValueType) → List Char → Option (List Char × ValueType)
  | [], _ => none
  | (n, t) :: rest, name => if n = name then some (n, t) else find_symbol rest name

/-- add_symbol from semantic.c (prepends at the head). -/
def add_symbol (table : List (List Char × ValueType)) (name : List Char)
    (t : ValueType) : List (List Char × ValueType) :=
  (name, t) :: table

/-- get_node_type from semantic.c. -/
def get_node_type : AstNode → ValueType
  | .literal _ _ v => v.vtype
  | .variableDeclaration _ _ _ t _ => t

/-- The 5x5 compatibility_table literal from check_types_compatible in
semantic.c, indexed [expected][actual] exactly as the C code indexes it
(rows and columns in ValueType declaration order NULL, INT, FLOAT, BOOL,
STRING). -/
def compatibility_table : ValueType → ValueType → Bool
  | .valueNull, .valueNull => true
  | .valueNull, _ => false
  | .valueInt, .valueInt => true
  | .valueInt, .valueFloat => true
  | .valueInt, _ => false
  | .valueFloat, .valueFloat => true
  | .valueFloat, _ => false
  | .valueBool, .valueBool => true
  | .valueBool, _ => false
  | .valueString, .valueString => true
  | .valueString, _ => false

/-- check_types_compatible from semantic.c. -/
def check_types_compatible (expected actual : ValueType) : Bool :=
  if expected = actual then true
  else if actual = ValueType.valueNull then true
  else compatibility_table expected actual

/-- The message built by snprintf in analyze_variable_declaration (both
type names are at most 6 bytes, so the 100-byte buffer never truncates). -/
def type_mismatch_message (initType varType : ValueType) : String :=
  "Type mismatch: cannot assign " ++ value_type_to_string initType ++
  " to variable of type " ++ value_type_to_string varType

/-- analyze_variable_declaration from semantic.c: duplicate check, symbol
insertion, then initializer type compatibility (the initializer pointer is
never NULL for parser-produced nodes, and the model's field is total). -/
def analyze_variable_declaration (a : SemanticAnalyzer) (e : KError) (line : Nat)
    (column : Int) (name : List Char) (varType : ValueType) (initializer : AstNode) :
    Bool × SemanticAnalyzer × KError :=
  if (find_symbol a.symbol_table name).isSome then
    let e' := set_error e .errorName (line : Int) column "Variable already declared" none 0 0
    (false, { a with hadError := true }, e')
  else
    let a1 := { a with symbol_table := add_symbol a.symbol_table name varType }
    let initType := get_node_type initializer
    if check_types_compatible varType initType = false then
      let e' := set_error e .errorType (initializer.nline : Int) initializer.ncolumn
        (type_mismatch_message initType varType) none 0 0
      (false, { a1 with hadError := true }, e')
    else (true, a1, e)

/-- analyze_node from semantic.c (literals are always valid). -/
def analyze_node (a : SemanticAnalyzer) (e : KError) : AstNode → Bool × SemanticAnalyzer × KError
  | .variableDeclaration line column name varType initializer =>
    analyze_variable_declaration a e line column name varType initializer
  | .literal _ _ _ => (true, a, e)

/-- analyze from semantic.c: visit the node (NULL is vacuously fine) and
report `result && !had_error`. -/
def analyze (a : SemanticAnalyzer) (e : KError) (node : Option AstNode) :
    Bool × SemanticAnalyzer × KError :=
  let r := match node with
    | none => (true, a, e)
    | some n => analyze_node a e n
  (r.1 && !r.2.1.hadError, r.2.1, r.2.2)

/-! ### Interpreter (interpreter.h / interpreter.c) -/

/-- Interpreter from interpreter.h: the environment is a head-inserted
list of (name, Value).  String payloads are duplicated on copy in C;
values are immutable here, so the copy is the identity. -/
structure Interp where
  env : List (List Char × Value)
  hadError : Bool
  replMode : Bool
deriving DecidableEq, Repr

/-- The existence scan of env_define. -/
def env_contains : List (List Char × Value) → List Char → Bool
  | [], _ => false
  | (n, _) :: rest, name => if n = name then true else env_contains rest name

/-- The in-place overwrite of env_define: replace the value of the first
entry whose name matches, keeping the list structure. -/
def env_update_first : List (List Char × Value) → List Char → Value → List (List Char × Value)
  | [], _, _ => []
  | (n, w) :: rest, name, v =>
    if n = name then (n, v) :: rest else (n, w) :: env_update_first rest name v

/-- env_define from interpreter.c: overwrite in place when the name exists
(releasing the old string payload — a no-op on immutable values),
otherwise prepend a fresh entry at the head. -/
def env_define (env : List (List Char × Value)) (name : List Char) (v : Value) :
    List (List Char × Value) :=
  if env_contains env name then env_update_first env name v
  else (name, v) :: env

/-- Environment lookup (an observer for stating properties; the C
interpreter has no variable reads). -/
def env_lookup : List (List Char × Value) → List Char → Option Value
  | [], _ => none
  | (n, w) :: rest, name => if n = name then some w else env_lookup rest name

/-- evaluate_node / evaluate_variable_declaration / evaluate_literal from
interpreter.c (the REPL echo is I/O only and dropped). -/
def evaluate_node (it : Interp) : AstNode → Value × Interp
  | .literal _ _ v => (v, it)
  | .variableDeclaration _ _ name _ initializer =>
    let r := evaluate_node it initializer
    (r.1, { r.2 with env := env_define r.2.env name r.1 })

/-- interpret from interpreter.c: a NULL AST yields a Null value without
touching the environment. -/
def interpret (it : Interp) (node : Option AstNode) : Value × Interp :=
  match node with
  | none => (Value.vnull, it)
  | some n => evaluate_node it n

/-! ### Driver (main.c run_source) -/

/-- The observable outcome of one run_source call: the AST, which stages
ran, interpret's return value, the final environment, the diagnostic
slot, and the returned bool. -/
structure RunResult where
  ast : Option AstNode
  parserHadError : Bool
  analyzeOk : Bool
  interpreted : Bool
  result : Value
  env : List (List Char × Value)
  err : KError
  success : Bool
deriving DecidableEq, Repr

/-- The stage sequencing of run_source after parse returns: stop when the
parser flagged an error or returned no AST; otherwise analyze; stop on
failure; otherwise interpret into a fresh environment and return true.
(print_error renders the pending diagnostic and changes no state.) -/
def run_after_parse (ape : Option AstNode × Parser × KError) (replMode : Bool) : RunResult :=
  let ast := ape.1
  let p1 := ape.2.1
  let e2 := ape.2.2
  if p1.hadError || ast.isNone then
    { ast := ast, parserHadError := p1.hadError, analyzeOk := false,
      interpreted := false, result := .vnull, env := [], err := e2,
      success := false }
  else
    let ar := analyze { symbol_table := [], hadError := false } e2 ast
    if ar.1 = false then
      { ast := ast, parserHadError := p1.hadError, analyzeOk := false,
        interpreted := false, result := .vnull, env := [], err := ar.2.2,
        success := false }
    else
      let ir := interpret { env := [], hadError := false, replMode := replMode } ast
      { ast := ast, parserHadError := p1.hadError, analyzeOk := true,
        interpreted := true, result := ir.1, env := ir.2.env, err := ar.2.2,
        success := true }

/-- run_source from main.c on a cleared diagnostic slot. -/
def run_source (source : List Char) (replMode : Bool) : RunResult :=
  let pe := init_parser_state (init_lexer source) cleared_error
  run_after_parse (parse pe.1 pe.2) replMode

/-- The parser state and diagnostic slot after parsing the one permitted
declaration of a source (priming included), before parse's end-of-file
check: the first stage of run_source, exposed for stating properties of
the trailing-token check. -/
def parse_decl_run (src : List Char) : Option AstNode × Parser × KError :=
  parse_declaration (init_parser_state (init_lexer src) cleared_error).1
    (init_parser_state (init_lexer src) cleared_error).2

/-! ### Helper lemmas -/

theorem env_update_first_fst (env : List (List Char × Value)) (name : List Char) (v : Value) :
    (env_update_first env name v).map Prod.fst = env.map Prod.fst := by
  induction env with
  | nil => rfl
  | cons hd tl ih =>
    obtain ⟨n, w⟩ := hd
    by_cases h : n = name <;> simp [env_update_first, h, ih]

theorem env_contains_iff_mem (env : List (List Char × Value)) (name : List Char) :
    env_contains env name = true ↔ name ∈ env.map Prod.fst := by
  induction env with
  | nil => simp [env_contains]
  | cons hd tl ih =>
    obtain ⟨n, w⟩ := hd
    by_cases h : n = name
    · subst h
      simp only [env_contains, if_pos rfl, List.map_cons, List.mem_cons]
      exact ⟨fun _ => Or.inl trivial, fun _ => rfl⟩
    · simp only [env_contains, if_neg h, List.map_cons, List.mem_cons, ih]
      constructor
      · exact fun hm => Or.inr hm
      · rintro (hm | hm)
        · exact absurd hm.symm h
        · exact hm

theorem env_update_first_lookup_self (env : List (List Char × Value)) (name : List Char)
    (v : Value) (h : env_contains env name = true) :
    env_lookup (env_update_first env name v) name = some v := by
  induction env with
  | nil => simp [env_contains] at h
  | cons hd tl ih =>
    obtain ⟨n, w⟩ := hd
    by_cases hn : n = name
    · simp [env_update_first, hn, env_lookup]
    · simp [env_contains, hn] at h
      simp [env_update_first, hn, env_lookup, ih h]

theorem env_update_first_lookup_ne (env : List (List Char × Value)) (name : List Char)
    (v : Value) (m : List Char) (h : m ≠ name) :
    env_lookup (env_update_first env name v) m = env_lookup env m := by
  induction env with
  | nil => rfl
  | cons hd tl ih =>
    obtain ⟨n, w⟩ := hd
    by_cases hn : n = name
    · subst hn
      have hnm : ¬(n = m) := fun hc => h hc.symm
      simp [env_update_first, env_lookup, hnm]
    · by_cases hm : n = m
      · subst hm
        simp [env_update_first, hn, env_lookup]
      · simp [env_update_first, hn, env_lookup, hm, ih]

theorem charAt_of_ge (s : List Char) (i : Nat) (h : s.length ≤ i) : charAt s i = nulChar := by
  simp [charAt, List.getD_eq_getElem?_getD, List.getElem?_eq_none h]

theorem charAt_lt_of_ne (s : List Char) (i : Nat) (h : charAt s i ≠ nulChar) : i < s.length := by
  by_contra hc
  push_neg at hc
  exact h (charAt_of_ge s i hc)

theorem char_kind_ne_eof (c : Char) (h : char_kind c ≠ CharKind.eof) : c ≠ nulChar := by
  intro hc
  subst hc
  exact h (by decide)

theorem skip_f_invar (f : Nat) : ∀ l : Lexer,
    (skip_whitespace_f f l).source = l.source
    ∧ (skip_whitespace_f f l).startPos = l.startPos
    ∧ (skip_whitespace_f f l).hadError = l.hadError
    ∧ l.pos ≤ (skip_whitespace_f f l).pos := by
  induction f with
  | zero => exact fun l => ⟨rfl, rfl, rfl, Nat.le_refl _⟩
  | succ n ih =>
    intro l
    simp only [skip_whitespace_f]
    split
    · obtain ⟨h1, h2, h3, h4⟩ := ih (advanceL l)
      have hp : (advanceL l).pos = l.pos + 1 := rfl
      exact ⟨h1, h2, h3, by omega⟩
    · obtain ⟨h1, h2, h3, h4⟩ := ih (advanceL { l with line := l.line + 1, col := 1 })
      have hp : (advanceL { l with line := l.line + 1, col := 1 }).pos = l.pos + 1 := rfl
      exact ⟨h1, h2, h3, by omega⟩
    · exact ⟨rfl, rfl, rfl, Nat.le_refl _⟩

theorem skip_invar (l : Lexer) :
    (skip_whitespace l).source = l.source
    ∧ (skip_whitespace l).startPos = l.startPos
    ∧ (skip_whitespace l).hadError = l.hadError
    ∧ l.pos ≤ (skip_whitespace l).pos :=
  skip_f_invar (lexer_fuel l) l

theorem ident_f_invar (f : Nat) : ∀ l : Lexer,
    (ident_loop_f f l).source = l.source
    ∧ (ident_loop_f f l).startPos = l.startPos
    ∧ (ident_loop_f f l).hadError = l.hadError
    ∧ (ident_loop_f f l).line = l.line
    ∧ l.pos ≤ (ident_loop_f f l).pos
    ∧ (ident_loop_f f l).col + l.pos = (ident_loop_f f l).pos + l.col := by
  induction f with
  | zero => exact fun l => ⟨rfl, rfl, rfl, rfl, Nat.le_refl _, Nat.add_comm _ _⟩
  | succ n ih =>
    intro l
    simp only [ident_loop_f]
    split
    · obtain ⟨h1, h2, h3, h4, h5, h6⟩ := ih (advanceL l)
      have hp : (advanceL l).pos = l.pos + 1 := rfl
      have hc : (advanceL l).col = l.col + 1 := rfl
      exact ⟨h1, h2, h3, h4, by omega, by omega⟩
    · obtain ⟨h1, h2, h3, h4, h5, h6⟩ := ih (advanceL l)
      have hp : (advanceL l).pos = l.pos + 1 := rfl
      have hc : (advanceL l).col = l.col + 1 := rfl
      exact ⟨h1, h2, h3, h4, by omega, by omega⟩
    · exact ⟨rfl, rfl, rfl, rfl, Nat.le_refl _, Nat.add_comm _ _⟩

theorem ident_invar (l : Lexer) :
    (ident_loop l).source = l.source
    ∧ (ident_loop l).startPos = l.startPos
    ∧ (ident_loop l).hadError = l.hadError
    ∧ (ident_loop l).line = l.line
    ∧ l.pos ≤ (ident_loop l).pos
    ∧ (ident_loop l).col + l.pos = (ident_loop l).pos + l.col :=
  ident_f_invar (lexer_fuel l) l

theorem digit_f_invar (f : Nat) : ∀ l : Lexer,
    (digit_loop_f f l).source = l.source
    ∧ (digit_loop_f f l).startPos = l.startPos
    ∧ (digit_loop_f f l).hadError = l.hadError
    ∧ (digit_loop_f f l).line = l.line
    ∧ l.pos ≤ (digit_loop_f f l).pos
    ∧ (digit_loop_f f l).col + l.pos = (digit_loop_f f l).pos + l.col := by
  induction f with
  | zero => exact fun l => ⟨rfl, rfl, rfl, rfl, Nat.le_refl _, Nat.add_comm _ _⟩
  | succ n ih =>
    intro l
    simp only [digit_loop_f]
    split
    · obtain ⟨h1, h2, h3, h4, h5, h6⟩ := ih (advanceL l)
      have hp : (advanceL l).pos = l.pos + 1 := rfl
      have hc : (advanceL l).col = l.col + 1 := rfl
      exact ⟨h1, h2, h3, h4, by omega, by omega⟩
    · exact ⟨rfl, rfl, rfl, rfl, Nat.le_refl _, Nat.add_comm _ _⟩

theorem digit_invar (l : Lexer) :
    (digit_loop l).source = l.source
    ∧ (digit_loop l).startPos = l.startPos
    ∧ (digit_loop l).hadError = l.hadError
    ∧ (digit_loop l).line = l.line
    ∧ l.pos ≤ (digit_loop l).pos
    ∧ (digit_loop l).col + l.pos = (digit_loop l).pos + l.col :=
  digit_f_invar (lexer_fuel l) l

theorem string_f_invar (f : Nat) : ∀ l : Lexer,
    (string_loop_f f l).source = l.source
    ∧ (string_loop_f f l).startPos = l.startPos
    ∧ (string_loop_f f l).hadError = l.hadError
    ∧ l.pos ≤ (string_loop_f f l).pos := by
  induction f with
  | zero => exact fun l => ⟨rfl, rfl, rfl, Nat.le_refl _⟩
  | succ n ih =>
    intro l
    simp only [string_loop_f]
    split
    · split
      · obtain ⟨h1, h2, h3, h4⟩ := ih (advanceL { l with line := l.line + 1, col := 1 })
        have hp : (advanceL { l with line := l.line + 1, col := 1 }).pos = l.pos + 1 := rfl
        exact ⟨h1, h2, h3, by omega⟩
      · obtain ⟨h1, h2, h3, h4⟩ := ih (advanceL l)
        have hp : (advanceL l).pos = l.pos + 1 := rfl
        exact ⟨h1, h2, h3, by omega⟩
    · exact ⟨rfl, rfl, rfl, Nat.le_refl _⟩

theorem string_invar (l : Lexer) :
    (string_loop l).source = l.source
    ∧ (string_loop l).startPos = l.startPos
    ∧ (string_loop l).hadError = l.hadError
    ∧ l.pos ≤ (string_loop l).pos :=
  string_f_invar (lexer_fuel l) l

theorem skip_whitespace_stop (l : Lexer)
    (h1 : char_kind (charAt l.source l.pos) ≠ .whitespace)
    (h2 : char_kind (charAt l.source l.pos) ≠ .newline) :
    skip_whitespace l = l := by
  unfold skip_whitespace
  cases hf : lexer_fuel l with
  | zero => rfl
  | succ n =>
    simp only [skip_whitespace_f]

theorem skip_whitespace_at_end (l : Lexer) (h : is_at_end l = true) :
    skip_whitespace l = l := by
  have hc : char_kind (charAt l.source l.pos) = .eof := by
    simp only [is_at_end, decide_eq_true_eq] at h
    rw [h]
    decide
  exact skip_whitespace_stop l (by simp [hc]) (by simp [hc])

theorem skip_whitespace_step_ws (l : Lexer)
    (h : char_kind (charAt l.source l.pos) = .whitespace) :
    skip_whitespace l = skip_whitespace (advanceL l) := by
  have hne : charAt l.source l.pos ≠ nulChar := char_kind_ne_eof _ (by simp [h])
  have hlt : l.pos < l.source.length := charAt_lt_of_ne _ _ hne
  have hf : lexer_fuel l = lexer_fuel (advanceL l) + 1 := by
    simp only [lexer_fuel, advanceL]
    omega
  conv_lhs => rw [skip_whitespace, hf]
  simp only [skip_whitespace_f]
  rw [h]
  rfl

theorem skip_whitespace_step_newline (l : Lexer)
    (h : char_kind (charAt l.source l.pos) = .newline) :
    skip_whitespace l
      = skip_whitespace (advanceL { l with line := l.line + 1, col := 1 }) := by
  have hne : charAt l.source l.pos ≠ nulChar := char_kind_ne_eof _ (by simp [h])
  have hlt : l.pos < l.source.length := charAt_lt_of_ne _ _ hne
  have hf : lexer_fuel l = lexer_fuel (advanceL { l with line := l.line + 1, col := 1 }) + 1 := by
    simp only [lexer_fuel, advanceL]
    omega
  conv_lhs => rw [skip_whitespace, hf]
  simp only [skip_whitespace_f]
  rw [h]
  rfl

theorem scan_token_at_end (l : Lexer) (e : KError) (h : is_at_end l = true) :
    scan_token l e
      = ({ ttype := .tokenEof, startPos := l.pos, length := 0, line := l.line,
           column := (l.col : Int), payload := .pnone },
         { l with startPos := l.pos }, e) := by
  unfold scan_token
  rw [skip_whitespace_at_end l h]
  have h2 : is_at_end { l with startPos := l.pos } = true := h
  simp [h2, make_token]

theorem number_state (l : Lexer) :
    (number l).2.source = l.source
    ∧ (number l).2.startPos = l.startPos
    ∧ (number l).2.line = l.line
    ∧ l.pos ≤ (number l).2.pos
    ∧ (number l).2.col + l.pos = (number l).2.pos + l.col
    ∧ (number l).1.line = (number l).2.line
    ∧ (number l).1.column
        = ((number l).2.col : Int) - (((number l).2.pos - (number l).2.startPos : Nat) : Int) := by
  simp only [number]
  split
  · dsimp only [make_token]
    obtain ⟨d1, d2, d3, d4, d5, d6⟩ := digit_invar l
    obtain ⟨g1, g2, g3, g4, g5, g6⟩ := digit_invar (advanceL (digit_loop l))
    have hp : (advanceL (digit_loop l)).pos = (digit_loop l).pos + 1 := rfl
    have hc : (advanceL (digit_loop l)).col = (digit_loop l).col + 1 := rfl
    have hl : (advanceL (digit_loop l)).line = (digit_loop l).line := rfl
    have hs : (advanceL (digit_loop l)).source = (digit_loop l).source := rfl
    have hsp : (advanceL (digit_loop l)).startPos = (digit_loop l).startPos := rfl
    exact ⟨g1.trans (hs.trans d1), g2.trans (hsp.trans d2), g4.trans (hl.trans d4),
      by omega, by omega, rfl, rfl⟩
  · dsimp only [make_token]
    obtain ⟨d1, d2, d3, d4, d5, d6⟩ := digit_invar l
    exact ⟨d1, d2, d4, d5, d6, rfl, rfl⟩

theorem string_tok_state (l : Lexer) (e : KError) :
    (string_tok l e).2.1.source = l.source ∧ l.pos ≤ (string_tok l e).2.1.pos := by
  obtain ⟨s1, s2, s3, s4⟩ := string_invar (advanceL l)
  have hp : (advanceL l).pos = l.pos + 1 := rfl
  have hs : (advanceL l).source = l.source := rfl
  simp only [string_tok]
  split
  · dsimp only [error_token]
    exact ⟨s1.trans hs, by omega⟩
  · dsimp only [make_token]
    have hp2 : (advanceL (string_loop (advanceL l))).pos = (string_loop (advanceL l)).pos + 1 := rfl
    have hs2 : (advanceL (string_loop (advanceL l))).source = (string_loop (advanceL l)).source := rfl
    exact ⟨hs2.trans (s1.trans hs), by omega⟩

theorem scan_token_skip_congr (l l' : Lexer) (e : KError)
    (h : skip_whitespace l = skip_whitespace l') : scan_token l e = scan_token l' e := by
  simp only [scan_token, h]

theorem scan_token_line_col (l : Lexer) (e : KError)
    (hkind : char_kind (charAt l.source l.pos) = CharKind.alpha
        ∨ char_kind (charAt l.source l.pos) = CharKind.digit
        ∨ charAt l.source l.pos = ':'
        ∨ charAt l.source l.pos = '='
        ∨ charAt l.source l.pos = ';') :
    (scan_token l e).1.line = l.line ∧ (scan_token l e).1.column = (l.col : Int) := by
  have hknd3 : char_kind (charAt l.source l.pos) = CharKind.alpha
      ∨ char_kind (charAt l.source l.pos) = CharKind.digit
      ∨ char_kind (charAt l.source l.pos) = CharKind.special := by
    rcases hkind with h | h | h | h | h
    · exact Or.inl h
    · exact Or.inr (Or.inl h)
    · exact Or.inr (Or.inr (by rw [h]; decide))
    · exact Or.inr (Or.inr (by rw [h]; decide))
    · exact Or.inr (Or.inr (by rw [h]; decide))
  have hstop : skip_whitespace l = l := by
    apply skip_whitespace_stop
    · rcases hknd3 with h | h | h <;> simp [h]
    · rcases hknd3 with h | h | h <;> simp [h]
  have hnul : charAt l.source l.pos ≠ nulChar := by
    refine char_kind_ne_eof _ ?_
    rcases hknd3 with h | h | h <;> simp [h]
  have hend : ¬(is_at_end { l with startPos := l.pos } = true) := by
    simp only [is_at_end, decide_eq_true_eq]
    exact hnul
  simp only [scan_token, hstop]
  rw [if_neg hend]
  have hBpos : (advanceL { l with startPos := l.pos }).pos = l.pos + 1 := rfl
  have hBcol : (advanceL { l with startPos := l.pos }).col = l.col + 1 := rfl
  have hBline : (advanceL { l with startPos := l.pos }).line = l.line := rfl
  have hBsp : (advanceL { l with startPos := l.pos }).startPos = l.pos := rfl
  rcases hkind with h | h | h | h | h
  · rw [show char_kind (charAt ({ l with startPos := l.pos } : Lexer).source
        ({ l with startPos := l.pos } : Lexer).pos) = CharKind.alpha from h]
    dsimp only [identifier, make_token]
    obtain ⟨i1, i2, i3, i4, i5, i6⟩ := ident_invar (advanceL { l with startPos := l.pos })
    exact ⟨i4.trans hBline, by omega⟩
  · rw [show char_kind (charAt ({ l with startPos := l.pos } : Lexer).source
        ({ l with startPos := l.pos } : Lexer).pos) = CharKind.digit from h]
    obtain ⟨n1, n2, n3, n4, n5, n6, n7⟩ := number_state (advanceL { l with startPos := l.pos })
    refine ⟨n6.trans (n3.trans hBline), ?_⟩
    rw [n7]
    omega
  · rw [show charAt ({ l with startPos := l.pos } : Lexer).source
        ({ l with startPos := l.pos } : Lexer).pos = ':' from h]
    rw [show char_kind ':' = CharKind.special from by decide]
    dsimp only [make_token]
    rw [if_pos rfl]
    refine ⟨rfl, ?_⟩
    dsimp only [advanceL]
    omega
  · rw [show charAt ({ l with startPos := l.pos } : Lexer).source
        ({ l with startPos := l.pos } : Lexer).pos = '=' from h]
    rw [show char_kind '=' = CharKind.special from by decide]
    dsimp only [make_token]
    rw [if_neg (by decide : ¬(('=' : Char) = ':')), if_pos rfl]
    refine ⟨rfl, ?_⟩
    dsimp only [advanceL]
    omega
  · rw [show charAt ({ l with startPos := l.pos } : Lexer).source
        ({ l with startPos := l.pos } : Lexer).pos = ';' from h]
    rw [show char_kind ';' = CharKind.special from by decide]
    dsimp only [make_token]
    rw [if_neg (by decide : ¬((';' : Char) = ':')), if_neg (by decide : ¬((';' : Char) = '=')),
      if_pos rfl]
    refine ⟨rfl, ?_⟩
    dsimp only [advanceL]
    omega

/-! ### Claim theorems -/

/-- C3: the diagnostic slot is first-error-wins.  Whenever a diagnostic is
pending, set_error is a no-op; set_error always leaves the slot pending
(only clear_error returns it to the not-pending state); and two set_error
calls in a row record only the first diagnostic. -/
theorem claim_c3_first_error_wins (e : KError) (t t2 : ErrorType)
    (ln col ln2 col2 : Int) (m m2 : String) (s s2 : Option (List Char))
    (sp sl sp2 sl2 : Int) :
    (e.has_error = true → set_error e t ln col m s sp sl = e)
    ∧ (set_error e t ln col m s sp sl).has_error = true
    ∧ (clear_error e).has_error = false
    ∧ set_error (set_error e t ln col m s sp sl) t2 ln2 col2 m2 s2 sp2 sl2
        = set_error e t ln col m s sp sl := by
  refine ⟨fun h => by simp [set_error, h], ?_, ?_, ?_⟩
  · by_cases h : e.has_error <;> simp [set_error, h]
  · simp [clear_error, cleared_error]
  · by_cases h : e.has_error <;> simp [set_error, h]

/-- Witness for C3 at a concrete pending diagnostic. -/
theorem claim_c3_witness :
    set_error (set_error cleared_error .errorSyntax 1 1 "first" none 0 1) .errorType 2 3 "second" none 4 5
        = set_error cleared_error .errorSyntax 1 1 "first" none 0 1
    ∧ (set_error cleared_error .errorSyntax 1 1 "first" none 0 1).has_error = true
    ∧ (clear_error (set_error cleared_error .errorSyntax 1 1 "first" none 0 1)).has_error = false
    ∧ set_error (set_error cleared_error .errorSyntax 1 1 "first" none 0 1) .errorType 2 3 "second" none 4 5
        = set_error cleared_error .errorSyntax 1 1 "first" none 0 1 := by
  have h := claim_c3_first_error_wins (set_error cleared_error .errorSyntax 1 1 "first" none 0 1)
    .errorType .errorType 2 3 2 3 "second" "second" none none 4 5 4 5
  exact ⟨h.1 (by decide), h.2.1, h.2.2.1, h.2.2.2⟩

/-- C8: env_define never fails; rebinding an existing name overwrites that
entry's value in place (the name list is unchanged), a fresh name prepends
exactly one entry; lookups see the new value under the bound name and are
otherwise untouched; and an environment without duplicate names keeps
that invariant. -/
theorem claim_c8_env_define (env : List (List Char × Value)) (name : List Char) (v : Value) :
    (env_define env name v).map Prod.fst
        = (if env_contains env name then env.map Prod.fst else name :: env.map Prod.fst)
    ∧ env_lookup (env_define env name v) name = some v
    ∧ (∀ m, m ≠ name → env_lookup (env_define env name v) m = env_lookup env m)
    ∧ ((env.map Prod.fst).Nodup → ((env_define env name v).map Prod.fst).Nodup) := by
  unfold env_define
  by_cases h : env_contains env name
  · refine ⟨by simp [h, env_update_first_fst], ?_, ?_, ?_⟩
    · simp [h, env_update_first_lookup_self env name v h]
    · intro m hm
      simp [h, env_update_first_lookup_ne env name v m hm]
    · intro hd
      simpa [h, env_update_first_fst] using hd
  · refine ⟨by simp [h], by simp [h, env_lookup], ?_, ?_⟩
    · intro m hm
      have hnm : ¬(name = m) := fun hc => hm hc.symm
      simp [h, env_lookup, hnm]
    · intro hd
      have hnm : name ∉ env.map Prod.fst := by
        rw [← env_contains_iff_mem]
        simp [h]
      simp [h, List.nodup_cons, hnm, hd]

/-- Witness for C8 at a concrete environment. -/
theorem claim_c8_witness :
    (env_define [("a".toList, Value.vint 1)] "b".toList (Value.vint 2)).map Prod.fst
        = (if env_contains [("a".toList, Value.vint 1)] "b".toList
            then [("a".toList, Value.vint 1)].map Prod.fst
            else "b".toList :: [("a".toList, Value.vint 1)].map Prod.fst)
    ∧ env_lookup (env_define [("a".toList, Value.vint 1)] "b".toList (Value.vint 2)) "b".toList
        = some (Value.vint 2)
    ∧ env_lookup (env_define [("a".toList, Value.vint 1)] "b".toList (Value.vint 2)) "a".toList
        = env_lookup [("a".toList, Value.vint 1)] "a".toList
    ∧ ((env_define [("a".toList, Value.vint 1)] "b".toList (Value.vint 2)).map Prod.fst).Nodup := by
  have h := claim_c8_env_define [("a".toList, Value.vint 1)] "b".toList (Value.vint 2)
  exact ⟨h.1, h.2.1, h.2.2.1 "a".toList (by decide), h.2.2.2 (by decide)⟩

/-- C1 (code bug): the claimed compatibility rule admits exactly T = L,
L = null, or T = float with L = int (widening).  The code's
compatibility_table is indexed [expected][actual] but written as a
from-to conversion table, so the int/float pair is transposed: a float
declaration rejects an int initializer (`let x: float = 1;` fails with a
Type diagnostic) while an int declaration accepts a float initializer
(`let x: int = 1.5;` is analyzed successfully and interpreted). -/
theorem claim_c1_widening_transposed :
    check_types_compatible .valueFloat .valueInt = false
    ∧ check_types_compatible .valueInt .valueFloat = true
    ∧ (run_source ("let x: float = 1;".toList) false).analyzeOk = false
    ∧ (run_source ("let x: float = 1;".toList) false).success = false
    ∧ (run_source ("let x: float = 1;".toList) false).err.etype = .errorType
    ∧ (run_source ("let x: float = 1;".toList) false).err.message
        = some (type_mismatch_message .valueInt .valueFloat)
    ∧ (run_source ("let x: float = 1;".toList) false).interpreted = false
    ∧ (run_source ("let x: int = 1.5;".toList) false).success = true
    ∧ (run_source ("let x: int = 1.5;".toList) false).interpreted = true
    ∧ (run_source ("let x: int = 1.5;".toList) false).err.has_error = false
    ∧ (run_source ("let x: int = 1.5;".toList) false).env
        = [("x".toList, Value.vfloat "1.5".toList)] := by
  decide

/-- C4: `let x: int = 42;` run non-interactively parses to exactly one
VariableDeclaration("x", Int, Literal(42)), analysis succeeds,
interpretation returns Int(42), no diagnostic is set, and the final
environment holds the single binding x to Int(42). -/
theorem claim_c4_let_int_42 :
    (run_source ("let x: int = 42;".toList) false).ast
        = some (AstNode.variableDeclaration 1 5 "x".toList .valueInt
            (AstNode.literal 1 14 (Value.vint 42)))
    ∧ (run_source ("let x: int = 42;".toList) false).analyzeOk = true
    ∧ (run_source ("let x: int = 42;".toList) false).result = Value.vint 42
    ∧ (run_source ("let x: int = 42;".toList) false).err.has_error = false
    ∧ (run_source ("let x: int = 42;".toList) false).env = [("x".toList, Value.vint 42)]
    ∧ (run_source ("let x: int = 42;".toList) false).success = true := by
  decide

/-- C5: `let y: bool = null;` passes semantic analysis (a null literal is
compatible with any declared type) and the interpreter binds y to a
Null-tagged Value unchanged — the stored tag stays Null even though the
declared type is Bool. -/
theorem claim_c5_let_bool_null :
    (run_source ("let y: bool = null;".toList) false).ast
        = some (AstNode.variableDeclaration 1 5 "y".toList .valueBool
            (AstNode.literal 1 15 Value.vnull))
    ∧ (run_source ("let y: bool = null;".toList) false).analyzeOk = true
    ∧ (run_source ("let y: bool = null;".toList) false).result = Value.vnull
    ∧ (run_source ("let y: bool = null;".toList) false).env = [("y".toList, Value.vnull)]
    ∧ (run_source ("let y: bool = null;".toList) false).err.has_error = false
    ∧ (run_source ("let y: bool = null;".toList) false).success = true := by
  decide

/-- C6 (code bug): an unterminated string records the claimed Syntax
diagnostic ("Unterminated string.", span from the opening quote at offset
16 to the end of input), and in initializer position interpretation indeed
does not run; but when the unterminated string starts after a complete
declaration, run_source consults only parser.had_error — not the lexer's
error flag or the pending diagnostic — so analysis and interpretation
still run and the call reports success. -/
theorem claim_c6_trailing_unterminated_runs :
    (run_source ("let x: int = 1; \"abc".toList) false).err.has_error = true
    ∧ (run_source ("let x: int = 1; \"abc".toList) false).err.etype = .errorSyntax
    ∧ (run_source ("let x: int = 1; \"abc".toList) false).err.message
        = some "Unterminated string."
    ∧ (run_source ("let x: int = 1; \"abc".toList) false).err.source_pos = 16
    ∧ (run_source ("let x: int = 1; \"abc".toList) false).err.source_len = 4
    ∧ (run_source ("let x: int = 1; \"abc".toList) false).interpreted = true
    ∧ (run_source ("let x: int = 1; \"abc".toList) false).success = true
    ∧ (run_source ("let s: string = \"abc".toList) false).err.message
        = some "Unterminated string."
    ∧ (run_source ("let s: string = \"abc".toList) false).err.source_pos = 16
    ∧ (run_source ("let s: string = \"abc".toList) false).interpreted = false
    ∧ (run_source ("let s: string = \"abc".toList) false).success = false := by
  decide

/-- C9: scan_token is total (it is a total function here, so every call
terminates) and makes progress: each call either consumes at least one
source character — the position strictly grows — or returns an EOF token
with the lexer at end of input, so lexing a finite source terminates.
Once end of input is reached every call returns the EOF token; the first
such call only normalizes the start marker to the current position and
the resulting state is a fixed point of scan_token, so every subsequent
call returns the same EOF token and leaves the lexer state unchanged. -/
theorem claim_c9_scan_token_progress (l : Lexer) (e : KError) :
    ((scan_token l e).2.1.pos > l.pos
      ∨ ((scan_token l e).1.ttype = .tokenEof ∧ is_at_end (scan_token l e).2.1 = true))
    ∧ (is_at_end l = true →
        scan_token l e
          = ({ ttype := .tokenEof, startPos := l.pos, length := 0, line := l.line,
               column := (l.col : Int), payload := .pnone }, { l with startPos := l.pos }, e)
        ∧ scan_token { l with startPos := l.pos } e
          = ({ ttype := .tokenEof, startPos := l.pos, length := 0, line := l.line,
               column := (l.col : Int), payload := .pnone }, { l with startPos := l.pos }, e)) := by
  constructor
  · obtain ⟨k1, k2, k3, k4⟩ := skip_invar l
    simp only [scan_token]
    set L := skip_whitespace l with hL
    split
    · next hend => exact Or.inr ⟨rfl, hend⟩
    · next hne =>
      split
      · refine Or.inl ?_
        dsimp only [identifier]
        obtain ⟨i1, i2, i3, i4, i5, i6⟩ := ident_invar (advanceL { L with startPos := L.pos })
        have hp : (advanceL { L with startPos := L.pos }).pos = L.pos + 1 := rfl
        omega
      · refine Or.inl ?_
        dsimp only
        obtain ⟨n1, n2, n3, n4, n5, n6, n7⟩ := number_state (advanceL { L with startPos := L.pos })
        have hp : (advanceL { L with startPos := L.pos }).pos = L.pos + 1 := rfl
        omega
      · refine Or.inl ?_
        obtain ⟨s1, s2⟩ := string_tok_state (advanceL { L with startPos := L.pos }) e
        have hp : (advanceL { L with startPos := L.pos }).pos = L.pos + 1 := rfl
        omega
      · have hp : (advanceL { L with startPos := L.pos }).pos = L.pos + 1 := rfl
        split_ifs
        · exact Or.inl (by dsimp only; omega)
        · exact Or.inl (by dsimp only; omega)
        · exact Or.inl (by dsimp only; omega)
        · refine Or.inl ?_
          dsimp only [error_token]
          omega
  · intro h
    refine ⟨scan_token_at_end l e h, ?_⟩
    have h2 : is_at_end { l with startPos := l.pos } = true := h
    exact scan_token_at_end { l with startPos := l.pos } e h2

/-- Witness for C9 at the empty source, which starts at end of input. -/
theorem claim_c9_witness :
    is_at_end (init_lexer []) = true
    ∧ ((scan_token (init_lexer []) cleared_error).2.1.pos > (init_lexer []).pos
        ∨ ((scan_token (init_lexer []) cleared_error).1.ttype = .tokenEof
            ∧ is_at_end (scan_token (init_lexer []) cleared_error).2.1 = true))
    ∧ scan_token { init_lexer [] with startPos := (init_lexer []).pos } cleared_error
        = ({ ttype := .tokenEof, startPos := (init_lexer []).pos, length := 0,
             line := (init_lexer []).line, column := ((init_lexer []).col : Int),
             payload := .pnone },
           { init_lexer [] with startPos := (init_lexer []).pos }, cleared_error) := by
  have h := claim_c9_scan_token_progress (init_lexer []) cleared_error
  exact ⟨by decide, h.1, (h.2 (by decide)).2⟩

/-- C2 counterexample: on the source "\n:" the first scanned token is the
colon starting at offset 1, the first character of line 2 (offset 0 is
the newline), yet its reported column is not 1. -/
theorem claim_c2_counterexample :
    charAt ("\n:".toList) 0 = Char.ofNat 10
    ∧ (scan_token (init_lexer ("\n:".toList)) cleared_error).1.ttype = .tokenColon
    ∧ (scan_token (init_lexer ("\n:".toList)) cleared_error).1.startPos = 1
    ∧ (scan_token (init_lexer ("\n:".toList)) cleared_error).1.line = 2
    ∧ ¬((scan_token (init_lexer ("\n:".toList)) cleared_error).1.column = 1) := by
  decide

/-- C2 (amended): for every source text, consuming a newline increments
the line counter by one and sets the column counter to 1 — but the shared
advance then immediately increments it, so the character after the
newline sits at column 2 of the counter and a token starting at the first
character of the new line (an identifier, number, or one of the
punctuation tokens) is reported at line + 1 and column 2, not column 1. -/
theorem claim_c2_newline_column (l : Lexer) (e : KError)
    (h1 : charAt l.source l.pos = Char.ofNat 10)
    (h2 : char_kind (charAt l.source (l.pos + 1)) = CharKind.alpha
        ∨ char_kind (charAt l.source (l.pos + 1)) = CharKind.digit
        ∨ charAt l.source (l.pos + 1) = ':'
        ∨ charAt l.source (l.pos + 1) = '='
        ∨ charAt l.source (l.pos + 1) = ';') :
    (scan_token l e).1.line = l.line + 1 ∧ (scan_token l e).1.column = 2 := by
  have hk : char_kind (charAt l.source l.pos) = CharKind.newline := by
    rw [h1]
    decide
  have hcong : scan_token l e
      = scan_token (advanceL { l with line := l.line + 1, col := 1 }) e :=
    scan_token_skip_congr _ _ e (skip_whitespace_step_newline l hk)
  rw [hcong]
  have h' := scan_token_line_col (advanceL { l with line := l.line + 1, col := 1 }) e h2
  exact h'

/-- Witness for C2 at the concrete source "\n:". -/
theorem claim_c2_witness :
    (scan_token (init_lexer ("\n:".toList)) cleared_error).1.line
        = (init_lexer ("\n:".toList)).line + 1
    ∧ (scan_token (init_lexer ("\n:".toList)) cleared_error).1.column = 2 :=
  claim_c2_newline_column (init_lexer ("\n:".toList)) cleared_error (by decide) (by decide)


theorem skip_ws_all_f (f : Nat) : ∀ l : Lexer,
    (∀ c ∈ l.source, char_kind c = CharKind.whitespace ∨ char_kind c = CharKind.newline) →
    l.pos ≤ l.source.length → f = l.source.length + 1 - l.pos →
    (skip_whitespace_f f l).pos = l.source.length := by
  induction f with
  | zero =>
    intro l h hle hf
    omega
  | succ n ih =>
    intro l h hle hf
    by_cases hpos : l.pos < l.source.length
    · have hmem : l.source[l.pos] ∈ l.source := List.getElem_mem hpos
      have hch : charAt l.source l.pos = l.source[l.pos] := by
        simp [charAt, List.getD_eq_getElem?_getD, List.getElem?_eq_getElem hpos]
      rcases h _ hmem with hk | hk
      · have hp : (advanceL l).pos = l.pos + 1 := rfl
        have hlen : (advanceL l).source.length = l.source.length := rfl
        simp only [skip_whitespace_f]
        rw [show char_kind (charAt l.source l.pos) = CharKind.whitespace from by
          rw [hch]; exact hk]
        rw [show ((skip_whitespace_f n (advanceL l)).pos = l.source.length)
            = ((skip_whitespace_f n (advanceL l)).pos = (advanceL l).source.length) from rfl]
        exact ih (advanceL l) h (by omega) (by omega)
      · have hp : (advanceL { l with line := l.line + 1, col := 1 }).pos = l.pos + 1 := rfl
        have hlen : (advanceL { l with line := l.line + 1, col := 1 }).source.length
            = l.source.length := rfl
        simp only [skip_whitespace_f]
        rw [show char_kind (charAt l.source l.pos) = CharKind.newline from by
          rw [hch]; exact hk]
        rw [show ((skip_whitespace_f n (advanceL { l with line := l.line + 1, col := 1 })).pos
              = l.source.length)
            = ((skip_whitespace_f n (advanceL { l with line := l.line + 1, col := 1 })).pos
              = (advanceL { l with line := l.line + 1, col := 1 }).source.length) from rfl]
        exact ih (advanceL { l with line := l.line + 1, col := 1 }) h (by omega) (by omega)
    · have hch : charAt l.source l.pos = nulChar := charAt_of_ge _ _ (by omega)
      simp only [skip_whitespace_f]
      rw [show char_kind (charAt l.source l.pos) = CharKind.eof from by rw [hch]; decide]
      show l.pos = l.source.length
      omega

theorem skip_ws_all (src : List Char)
    (h : ∀ c ∈ src, char_kind c = CharKind.whitespace ∨ char_kind c = CharKind.newline) :
    (skip_whitespace (init_lexer src)).pos = src.length :=
  skip_ws_all_f (lexer_fuel (init_lexer src)) (init_lexer src) h (Nat.zero_le _) rfl

theorem parse_at_eof (p : Parser) (e : KError)
    (hcur : p.current.ttype = .tokenEof) :
    parse p e = (none, { p with hadError := true },
      set_error e .errorSyntax (p.current.line : Int) p.current.column
        "Expected 'let' keyword." (some p.lexer.source) (p.current.startPos : Int)
        (p.current.length : Int)) := by
  simp only [parse, parse_declaration, parse_variable_declaration, consume]
  rw [hcur]
  simp
  simp [parse_eof_check, hcur]

/-- C10: an empty or whitespace-and-newline-only source fails at the very
first parsing step: the primed token is EOF, consume(TOKEN_LET) records a
Syntax diagnostic "Expected 'let' keyword.", no AST is returned, and
interpretation does not run — an empty compilation unit is an error, not
a successful no-op. -/
theorem claim_c10_empty_source (src : List Char)
    (h : ∀ c ∈ src, char_kind c = CharKind.whitespace ∨ char_kind c = CharKind.newline) :
    (run_source src false).ast = none
    ∧ (run_source src false).success = false
    ∧ (run_source src false).interpreted = false
    ∧ (run_source src false).err.has_error = true
    ∧ (run_source src false).err.etype = .errorSyntax
    ∧ (run_source src false).err.message = some "Expected 'let' keyword." := by
  have hpos := skip_ws_all src h
  obtain ⟨k1, k2, k3, k4⟩ := skip_invar (init_lexer src)
  have k1' : (skip_whitespace (init_lexer src)).source = src := k1
  have hend : is_at_end
      { skip_whitespace (init_lexer src) with
        startPos := (skip_whitespace (init_lexer src)).pos } = true := by
    simp only [is_at_end, decide_eq_true_eq]
    show charAt (skip_whitespace (init_lexer src)).source
      (skip_whitespace (init_lexer src)).pos = nulChar
    rw [k1', hpos]
    exact charAt_of_ge _ _ (Nat.le_refl _)
  have hscan : scan_token (init_lexer src) cleared_error
      = (make_token
          { skip_whitespace (init_lexer src) with
            startPos := (skip_whitespace (init_lexer src)).pos } .tokenEof,
         { skip_whitespace (init_lexer src) with
           startPos := (skip_whitespace (init_lexer src)).pos }, cleared_error) := by
    simp only [scan_token]
    rw [if_pos hend]
  have hp0 : init_parser_state (init_lexer src) cleared_error
      = ({ lexer :=
            { skip_whitespace (init_lexer src) with
              startPos := (skip_whitespace (init_lexer src)).pos },
           current := make_token
            { skip_whitespace (init_lexer src) with
              startPos := (skip_whitespace (init_lexer src)).pos } .tokenEof,
           previous := default_token, hadError := false, panicMode := false },
         cleared_error) := by
    simp only [init_parser_state, advanceP, hscan]
  have hparse := parse_at_eof
    { lexer :=
        { skip_whitespace (init_lexer src) with
          startPos := (skip_whitespace (init_lexer src)).pos },
      current := make_token
        { skip_whitespace (init_lexer src) with
          startPos := (skip_whitespace (init_lexer src)).pos } .tokenEof,
      previous := default_token, hadError := false, panicMode := false }
    cleared_error rfl
  simp only [run_source, hp0, hparse]
  simp [run_after_parse, set_error, cleared_error]

/-- Witness for C10 at the concrete whitespace-only source " \n". -/
theorem claim_c10_witness :
    (run_source (" \n".toList) false).ast = none
    ∧ (run_source (" \n".toList) false).success = false
    ∧ (run_source (" \n".toList) false).interpreted = false
    ∧ (run_source (" \n".toList) false).err.has_error = true
    ∧ (run_source (" \n".toList) false).err.etype = .errorSyntax
    ∧ (run_source (" \n".toList) false).err.message = some "Expected 'let' keyword." :=
  claim_c10_empty_source (" \n".toList) (by decide)

/-- C7: when the one permitted declaration parses successfully (with no
parser error and no pending diagnostic) but the current token is not EOF,
the parser's end-of-file check fails: it records a Syntax diagnostic
"Expected end of file." at the trailing token's line and column, the
parse is flagged as failed, and run_source stops before analysis, so
interpretation does not run. -/
theorem claim_c7_trailing_token (src : List Char)
    (h1 : (parse_decl_run src).1.isSome = true)
    (h2 : (parse_decl_run src).2.1.hadError = false)
    (h3 : (parse_decl_run src).2.1.current.ttype ≠ TokenType.tokenEof)
    (h4 : (parse_decl_run src).2.2.has_error = false) :
    (run_source src false).success = false
    ∧ (run_source src false).interpreted = false
    ∧ (run_source src false).ast = (parse_decl_run src).1
    ∧ (run_source src false).err.has_error = true
    ∧ (run_source src false).err.etype = .errorSyntax
    ∧ (run_source src false).err.message = some "Expected end of file."
    ∧ (run_source src false).err.line = ((parse_decl_run src).2.1.current.line : Int)
    ∧ (run_source src false).err.column = (parse_decl_run src).2.1.current.column := by
  generalize hR : parse_decl_run src = R
  rw [hR] at h1 h2 h3 h4
  obtain ⟨oa, p1, e2⟩ := R
  dsimp only at h1 h2 h3 h4
  have h0 : run_source src false
      = run_after_parse (parse_eof_check (parse_decl_run src)) false := rfl
  rw [h0, hR]
  simp only [parse_eof_check]
  rw [if_pos (And.intro h3 h2)]
  simp [run_after_parse, set_error, h4]

/-- Witness for C7 at the concrete source with a trailing semicolon. -/
theorem claim_c7_witness :
    (run_source ("let x: int = 1;;".toList) false).success = false
    ∧ (run_source ("let x: int = 1;;".toList) false).interpreted = false
    ∧ (run_source ("let x: int = 1;;".toList) false).ast
        = (parse_decl_run ("let x: int = 1;;".toList)).1
    ∧ (run_source ("let x: int = 1;;".toList) false).err.has_error = true
    ∧ (run_source ("let x: int = 1;;".toList) false).err.etype = .errorSyntax
    ∧ (run_source ("let x: int = 1;;".toList) false).err.message
        = some "Expected end of file."
    ∧ (run_source ("let x: int = 1;;".toList) false).err.line
        = ((parse_decl_run ("let x: int = 1;;".toList)).2.1.current.line : Int)
    ∧ (run_source ("let x: int = 1;;".toList) false).err.column
        = (parse_decl_run ("let x: int = 1;;".toList)).2.1.current.column :=
  claim_c7_trailing_token ("let x: int = 1;;".toList) (by decide) (by decide) (by decide)
    (by decide)
